import Mathlib

/-!
Verification of the hwmon subfeature layer (`src/hwmon/src/subfeature.rs`).

Strings from the Rust side are embedded as `List Char` (the basenames in
scope are ASCII, so byte indices and character indices coincide at every
split the code performs).  The `f64` values flowing through the unit
conversion are embedded as exact rationals `ℚ`; integer results of
`to_native` are `ℤ`.  Filesystem state is passed explicitly through an
`FS` record of query functions, and the observable effect of a write is
reified as the text handed to the file.
-/

namespace Hwmon

/-- Embedding of Rust `str::split_once(sep)`: split at the first occurrence
of `sep`, returning the parts before and after it, or `none` when `sep`
does not occur. -/
def splitOnce (sep : Char) : List Char → Option (List Char × List Char)
  | [] => none
  | c :: cs =>
    if c = sep then some ([], cs)
    else (splitOnce sep cs).map (fun p => (c :: p.1, p.2))

/-- Embedding of Rust `str::find(|c| c.is_ascii_digit())`: index of the
first ASCII digit. -/
def findFirstDigit : List Char → Option Nat
  | [] => none
  | c :: cs =>
    if c.isDigit then some 0
    else (findFirstDigit cs).map (· + 1)

/-- Numeric value of a base-10 digit character. -/
def digitVal (c : Char) : Nat := c.toNat - 48

/-- Value of a digit string read in base 10 (most significant first). -/
def digitsVal (l : List Char) : Nat :=
  l.foldl (fun a c => 10 * a + digitVal c) 0

/-- Auxiliary recursion of the base-10 parser: accumulate digits, failing
on the first non-digit character. -/
def parseDigitsAux (acc : Nat) : List Char → Option Nat
  | [] => some acc
  | c :: cs =>
    if c.isDigit then parseDigitsAux (10 * acc + digitVal c) cs else none

/-- Parse a non-empty all-digit string in base 10; `none` on the empty
string or any non-digit character. -/
def parseDigits : List Char → Option Nat
  | [] => none
  | c :: cs => parseDigitsAux 0 (c :: cs)

/-- Drop one leading sign character `+` when present (Rust's unsigned
`from_str` accepts it). -/
def stripPlus : List Char → List Char
  | [] => []
  | c :: cs => if c = '+' then cs else c :: cs

/-- Embedding of Rust `u32::from_str`: optional leading `+`, then a
non-empty run of base-10 digits whose value fits in 32 bits; every other
input is a parse error (`none`). -/
def u32FromStr (s : List Char) : Option Nat :=
  match parseDigits (stripPlus s) with
  | none => none
  | some n => if n < 4294967296 then some n else none

/-- Decimal digit character for a value below 10. -/
def digitChar : Nat → Char
  | 0 => '0' | 1 => '1' | 2 => '2' | 3 => '3' | 4 => '4'
  | 5 => '5' | 6 => '6' | 7 => '7' | 8 => '8' | 9 => '9'
  | _ => '*'

/-- Auxiliary fuel-indexed decimal renderer; the fuel only bounds the
recursion depth (any fuel above the digit count gives the numeral) and
keeps the recursion structural. -/
def natCharsAux : Nat → Nat → List Char
  | 0, _ => []
  | fuel + 1, n =>
    if n < 10 then [digitChar n]
    else natCharsAux fuel (n / 10) ++ [digitChar (n % 10)]

/-- Standard decimal numeral of a natural number (no leading zeros). -/
def natChars (n : Nat) : List Char := natCharsAux (n + 1) n

/-- Decimal text of a signed integer, as Rust `write!("{}", i)` renders an
`i64`. -/
def intChars (i : Int) : List Char :=
  if i < 0 then '-' :: natChars i.natAbs else natChars i.natAbs

/-- Modelled from the spec: the rational scale factor type of
`crate::ratio::Ratio<u64>` (numerator, denominator), whose definition is
outside `src/`. -/
structure Ratio where
  numer : Nat
  denom : Nat
deriving DecidableEq, Repr

/-- Modelled from the spec: the `Unity` (1/1) scale constant of
`crate::prefix::si`, outside `src/`. -/
def Unity : Ratio := ⟨1, 1⟩

/-- Modelled from the spec: the `Milli` (1/1000) scale constant of
`crate::prefix::si`, outside `src/`. -/
def Milli : Ratio := ⟨1, 1000⟩

/-- Modelled from the spec: the `Micro` (1/1000000) scale constant of
`crate::prefix::si`, outside `src/`. -/
def Micro : Ratio := ⟨1, 1000000⟩

/-- Modelled from the spec: the feature-class tag `FeatureType` of
`crate::feature` (outside `src/`); `get_properties_from_name` carries it
in the registry but never inspects it. -/
inductive FeatureType
  | Temperature | Voltage | Fan | Pwm | Cpu | Power | Current | Energy
  | Intrusion | Humidity
deriving DecidableEq, Repr

/-- Fan subfeature variants (`make_subfeatures! feature: Fan`). -/
inductive Fan
  | Input | Min | Max | Div | Pulses | Target | Label | Enable
  | Alarm | Min_Alarm | Max_Alarm | Fault | Beep
deriving DecidableEq, Repr

/-- Ratio of each `Fan` variant, from the `make_subfeatures!` rows. -/
def Fan.ratio : Fan → Ratio
  | .Input => Unity | .Min => Unity | .Max => Unity | .Div => Unity
  | .Pulses => Unity | .Target => Unity | .Label => Unity | .Enable => Unity
  | .Alarm => Unity | .Min_Alarm => Unity | .Max_Alarm => Unity
  | .Fault => Unity | .Beep => Unity

/-- Alarm flag of each `Fan` variant, from the `make_subfeatures!` rows. -/
def Fan.is_alarm : Fan → Bool
  | .Input => false | .Min => false | .Max => false | .Div => false
  | .Pulses => false | .Target => false | .Label => false | .Enable => false
  | .Alarm => true | .Min_Alarm => true | .Max_Alarm => true
  | .Fault => false | .Beep => false

/-- Pwm subfeature variants (`make_subfeatures! feature: Pwm`). -/
inductive Pwm
  | Pwm | Enable | Mode | Freq
deriving DecidableEq, Repr

/-- Ratio of each `Pwm` variant. -/
def Pwm.ratio : Hwmon.Pwm → Ratio
  | .Pwm => Unity | .Enable => Unity | .Mode => Unity | .Freq => Unity

/-- Alarm flag of each `Pwm` variant. -/
def Pwm.is_alarm : Hwmon.Pwm → Bool
  | .Pwm => false | .Enable => false | .Mode => false | .Freq => false

/-- Temperature subfeature variants (`make_subfeatures! feature:
Temperature`). -/
inductive Temperature
  | Input | Max | Max_Hyst | Min | Min_Hyst | Crit_Max | Crit_Max_Hyst
  | Crit_Min | Crit_Min_Hyst | Emergency | Emergency_Hyst | Lowest
  | Highest | Offset | «Type»
  | Alarm | Max_Alarm | Min_Alarm | Emergency_Alarm | Crit_Max_Alarm
  | Crit_Min_Alarm | Fault | Beep
deriving DecidableEq, Repr

/-- Ratio of each `Temperature` variant. -/
def Temperature.ratio : Temperature → Ratio
  | .Input => Milli | .Max => Milli | .Max_Hyst => Milli | .Min => Milli
  | .Min_Hyst => Milli | .Crit_Max => Milli | .Crit_Max_Hyst => Milli
  | .Crit_Min => Milli | .Crit_Min_Hyst => Milli | .Emergency => Milli
  | .Emergency_Hyst => Milli | .Lowest => Milli | .Highest => Milli
  | .Offset => Milli | .«Type» => Unity
  | .Alarm => Unity | .Max_Alarm => Unity | .Min_Alarm => Unity
  | .Emergency_Alarm => Unity | .Crit_Max_Alarm => Unity
  | .Crit_Min_Alarm => Unity | .Fault => Unity | .Beep => Unity

/-- Alarm flag of each `Temperature` variant. -/
def Temperature.is_alarm : Temperature → Bool
  | .Alarm => true | .Max_Alarm => true | .Min_Alarm => true
  | .Emergency_Alarm => true | .Crit_Max_Alarm => true
  | .Crit_Min_Alarm => true
  | _ => false

/-- Voltage subfeature variants (`make_subfeatures! feature: Voltage`). -/
inductive Voltage
  | Input | Max | Min | Crit_Max | Crit_Min | Average | Highest | Lowest
  | Alarm | Max_Alarm | Min_Alarm | Crit_Max_Alarm | Crit_Min_Alarm | Beep
deriving DecidableEq, Repr

/-- Ratio of each `Voltage` variant. -/
def Voltage.ratio : Voltage → Ratio
  | .Input => Milli | .Max => Milli | .Min => Milli | .Crit_Max => Milli
  | .Crit_Min => Milli | .Average => Milli | .Highest => Milli
  | .Lowest => Milli
  | .Alarm => Unity | .Max_Alarm => Unity | .Min_Alarm => Unity
  | .Crit_Max_Alarm => Unity | .Crit_Min_Alarm => Unity | .Beep => Unity

/-- Alarm flag of each `Voltage` variant. -/
def Voltage.is_alarm : Voltage → Bool
  | .Alarm => true | .Max_Alarm => true | .Min_Alarm => true
  | .Crit_Max_Alarm => true | .Crit_Min_Alarm => true
  | _ => false

/-- Current subfeature variants (`make_subfeatures! feature: Current`). -/
inductive Current
  | Input | Max | Min | Crit_Max | Crit_Min | Average | Highest | Lowest
  | Alarm | Max_Alarm | Min_Alarm | Crit_Max_Alarm | Crit_Min_Alarm | Beep
deriving DecidableEq, Repr

/-- Ratio of each `Current` variant. -/
def Current.ratio : Current → Ratio
  | .Input => Milli | .Max => Milli | .Min => Milli | .Crit_Max => Milli
  | .Crit_Min => Milli | .Average => Milli | .Highest => Milli
  | .Lowest => Milli
  | .Alarm => Unity | .Max_Alarm => Unity | .Min_Alarm => Unity
  | .Crit_Max_Alarm => Unity | .Crit_Min_Alarm => Unity | .Beep => Unity

/-- Alarm flag of each `Current` variant. -/
def Current.is_alarm : Current → Bool
  | .Alarm => true | .Max_Alarm => true | .Min_Alarm => true
  | .Crit_Max_Alarm => true | .Crit_Min_Alarm => true
  | _ => false

/-- Power subfeature variants (`make_subfeatures! feature: Power`). -/
inductive Power
  | Average | Average_Highest | Average_Lowest | Input | Input_Highest
  | Input_Lowest | Cap | Cap_Max | Cap_Min | Cap_Hyst | Max | Min
  | Crit_Max | Crit_Min | Average_Interval | Average_Interval_Max
  | Average_Interval_Min | Accuracy
  | Alarm | Cap_Alarm | Max_Alarm | Min_Alarm | Crit_Max_Alarm
  | Crit_Min_Alarm
deriving DecidableEq, Repr

/-- Ratio of each `Power` variant. -/
def Power.ratio : Power → Ratio
  | .Average => Micro | .Average_Highest => Micro | .Average_Lowest => Micro
  | .Input => Micro | .Input_Highest => Micro | .Input_Lowest => Micro
  | .Cap => Micro | .Cap_Max => Micro | .Cap_Min => Micro
  | .Cap_Hyst => Micro | .Max => Micro | .Min => Micro | .Crit_Max => Micro
  | .Crit_Min => Micro | .Average_Interval => Milli
  | .Average_Interval_Max => Milli | .Average_Interval_Min => Milli
  | .Accuracy => Unity
  | .Alarm => Unity | .Cap_Alarm => Unity | .Max_Alarm => Unity
  | .Min_Alarm => Unity | .Crit_Max_Alarm => Unity | .Crit_Min_Alarm => Unity

/-- Alarm flag of each `Power` variant. -/
def Power.is_alarm : Power → Bool
  | .Alarm => true | .Cap_Alarm => true | .Max_Alarm => true
  | .Min_Alarm => true | .Crit_Max_Alarm => true | .Crit_Min_Alarm => true
  | _ => false

/-- Energy subfeature variants (`make_subfeatures! feature: Energy`). -/
inductive Energy
  | Input
deriving DecidableEq, Repr

/-- Ratio of each `Energy` variant. -/
def Energy.ratio : Energy → Ratio
  | .Input => Micro

/-- Alarm flag of each `Energy` variant. -/
def Energy.is_alarm : Energy → Bool
  | .Input => false

/-- Humidity subfeature variants (`make_subfeatures! feature: Humidity`). -/
inductive Humidity
  | Input
deriving DecidableEq, Repr

/-- Ratio of each `Humidity` variant. -/
def Humidity.ratio : Humidity → Ratio
  | .Input => Milli

/-- Alarm flag of each `Humidity` variant. -/
def Humidity.is_alarm : Humidity → Bool
  | .Input => false

/-- Intrusion subfeature variants (`make_subfeatures! feature:
Intrusion`). -/
inductive Intrusion
  | Alarm | Beep
deriving DecidableEq, Repr

/-- Ratio of each `Intrusion` variant (both rows use `Micro`). -/
def Intrusion.ratio : Intrusion → Ratio
  | .Alarm => Micro | .Beep => Micro

/-- Alarm flag of each `Intrusion` variant (both rows are `false`). -/
def Intrusion.is_alarm : Intrusion → Bool
  | .Alarm => false | .Beep => false

/-- The two-level tagged union `SubfeatureType`. -/
inductive SubfeatureType
  | Fan (sft : Fan)
  | Pwm (sft : Pwm)
  | Temperature (sft : Temperature)
  | Voltage (sft : Voltage)
  | Current (sft : Current)
  | Power (sft : Power)
  | Energy (sft : Energy)
  | Humidity (sft : Humidity)
  | Cpu
  | Intrusion (sft : Intrusion)
  | BeepEnable
deriving DecidableEq, Repr

/-- Dispatching `SubfeatureType::ratio`; `Cpu` is `Milli` and `BeepEnable`
is `Unity`. -/
def SubfeatureType.ratio : SubfeatureType → Ratio
  | .Fan sft => sft.ratio
  | .Pwm sft => sft.ratio
  | .Temperature sft => sft.ratio
  | .Voltage sft => sft.ratio
  | .Current sft => sft.ratio
  | .Power sft => sft.ratio
  | .Energy sft => sft.ratio
  | .Humidity sft => sft.ratio
  | .Intrusion sft => sft.ratio
  | .Cpu => Milli
  | .BeepEnable => Unity

/-- Dispatching `SubfeatureType::is_alarm`; `Cpu` and `BeepEnable` are
`false`. -/
def SubfeatureType.is_alarm : SubfeatureType → Bool
  | .Fan sft => sft.is_alarm
  | .Pwm sft => sft.is_alarm
  | .Temperature sft => sft.is_alarm
  | .Voltage sft => sft.is_alarm
  | .Current sft => sft.is_alarm
  | .Power sft => sft.is_alarm
  | .Energy sft => sft.is_alarm
  | .Humidity sft => sft.is_alarm
  | .Intrusion sft => sft.is_alarm
  | .Cpu => false
  | .BeepEnable => false

/-- A per-class suffix table: association list standing for the
`HashMap<&str, SubfeatureType>` built by `make_subfeatures!` (all keys
are distinct, so association-list lookup agrees with the hash map). -/
abbrev SuffixMap := List (List Char × SubfeatureType)

/-- The suffix table `FAN_MAP`. -/
def FAN_MAP : SuffixMap :=
  [("input".toList, .Fan .Input), ("min".toList, .Fan .Min),
   ("max".toList, .Fan .Max), ("div".toList, .Fan .Div),
   ("pulses".toList, .Fan .Pulses), ("target".toList, .Fan .Target),
   ("label".toList, .Fan .Label), ("enable".toList, .Fan .Enable),
   ("alarm".toList, .Fan .Alarm), ("min_alarm".toList, .Fan .Min_Alarm),
   ("max_alarm".toList, .Fan .Max_Alarm), ("fault".toList, .Fan .Fault),
   ("beep".toList, .Fan .Beep)]

/-- The suffix table `PWM_MAP`; note the empty-string key for the bare
`pwm<N>` file. -/
def PWM_MAP : SuffixMap :=
  [("".toList, .Pwm .Pwm), ("enable".toList, .Pwm .Enable),
   ("mode".toList, .Pwm .Mode), ("freq".toList, .Pwm .Freq)]

/-- The suffix table `TEMPERATURE_MAP`. -/
def TEMPERATURE_MAP : SuffixMap :=
  [("input".toList, .Temperature .Input),
   ("max".toList, .Temperature .Max),
   ("max_hyst".toList, .Temperature .Max_Hyst),
   ("min".toList, .Temperature .Min),
   ("min_hyst".toList, .Temperature .Min_Hyst),
   ("crit".toList, .Temperature .Crit_Max),
   ("crit_hyst".toList, .Temperature .Crit_Max_Hyst),
   ("lcrit".toList, .Temperature .Crit_Min),
   ("lcrit_hyst".toList, .Temperature .Crit_Min_Hyst),
   ("emergency".toList, .Temperature .Emergency),
   ("emergency_hyst".toList, .Temperature .Emergency_Hyst),
   ("lowest".toList, .Temperature .Lowest),
   ("highest".toList, .Temperature .Highest),
   ("offset".toList, .Temperature .Offset),
   ("type".toList, .Temperature .«Type»),
   ("alarm".toList, .Temperature .Alarm),
   ("max_alarm".toList, .Temperature .Max_Alarm),
   ("min_alarm".toList, .Temperature .Min_Alarm),
   ("emergency_alarm".toList, .Temperature .Emergency_Alarm),
   ("crit_alarm".toList, .Temperature .Crit_Max_Alarm),
   ("lcrit_alarm".toList, .Temperature .Crit_Min_Alarm),
   ("fault".toList, .Temperature .Fault),
   ("beep".toList, .Temperature .Beep)]

/-- The suffix table `VOLTAGE_MAP`. -/
def VOLTAGE_MAP : SuffixMap :=
  [("input".toList, .Voltage .Input), ("max".toList, .Voltage .Max),
   ("min".toList, .Voltage .Min), ("crit".toList, .Voltage .Crit_Max),
   ("lcrit".toList, .Voltage .Crit_Min),
   ("average".toList, .Voltage .Average),
   ("highest".toList, .Voltage .Highest),
   ("lowest".toList, .Voltage .Lowest),
   ("alarm".toList, .Voltage .Alarm),
   ("max_alarm".toList, .Voltage .Max_Alarm),
   ("min_alarm".toList, .Voltage .Min_Alarm),
   ("crit_alarm".toList, .Voltage .Crit_Max_Alarm),
   ("lcrit_alarm".toList, .Voltage .Crit_Min_Alarm),
   ("beep".toList, .Voltage .Beep)]

/-- The suffix table `CURRENT_MAP`. -/
def CURRENT_MAP : SuffixMap :=
  [("input".toList, .Current .Input), ("max".toList, .Current .Max),
   ("min".toList, .Current .Min), ("crit".toList, .Current .Crit_Max),
   ("lcrit".toList, .Current .Crit_Min),
   ("average".toList, .Current .Average),
   ("highest".toList, .Current .Highest),
   ("lowest".toList, .Current .Lowest),
   ("alarm".toList, .Current .Alarm),
   ("max_alarm".toList, .Current .Max_Alarm),
   ("min_alarm".toList, .Current .Min_Alarm),
   ("crit_alarm".toList, .Current .Crit_Max_Alarm),
   ("lcrit_alarm".toList, .Current .Crit_Min_Alarm),
   ("beep".toList, .Current .Beep)]

/-- The suffix table `POWER_MAP`. -/
def POWER_MAP : SuffixMap :=
  [("average".toList, .Power .Average),
   ("average_highest".toList, .Power .Average_Highest),
   ("average_lowest".toList, .Power .Average_Lowest),
   ("input".toList, .Power .Input),
   ("input_highest".toList, .Power .Input_Highest),
   ("input_lowest".toList, .Power .Input_Lowest),
   ("cap".toList, .Power .Cap),
   ("cap_max".toList, .Power .Cap_Max),
   ("cap_min".toList, .Power .Cap_Min),
   ("cap_hyst".toList, .Power .Cap_Hyst),
   ("max".toList, .Power .Max),
   ("min".toList, .Power .Min),
   ("crit".toList, .Power .Crit_Max),
   ("lcrit".toList, .Power .Crit_Min),
   ("average_interval".toList, .Power .Average_Interval),
   ("average_interval_max".toList, .Power .Average_Interval_Max),
   ("average_interval_min".toList, .Power .Average_Interval_Min),
   ("accuracy".toList, .Power .Accuracy),
   ("alarm".toList, .Power .Alarm),
   ("cap_alarm".toList, .Power .Cap_Alarm),
   ("max_alarm".toList, .Power .Max_Alarm),
   ("min_alarm".toList, .Power .Min_Alarm),
   ("crit_alarm".toList, .Power .Crit_Max_Alarm),
   ("lcrit_alarm".toList, .Power .Crit_Min_Alarm)]

/-- The suffix table `ENERGY_MAP`. -/
def ENERGY_MAP : SuffixMap :=
  [("input".toList, .Energy .Input)]

/-- The suffix table `HUMIDITY_MAP`. -/
def HUMIDITY_MAP : SuffixMap :=
  [("input".toList, .Humidity .Input)]

/-- The suffix table `INTRUSION_MAP`. -/
def INTRUSION_MAP : SuffixMap :=
  [("alarm".toList, .Intrusion .Alarm),
   ("beep".toList, .Intrusion .Beep)]

/-- The suffix table `CPU_MAP` (declared directly, not via the macro). -/
def CPU_MAP : SuffixMap :=
  [("vid".toList, .Cpu)]

/-- The class registry type of `FEATURE_TYPE_MAP`: class-name key to
(class tag, suffix table). -/
abbrev FeatureMap := List (List Char × (FeatureType × SuffixMap))

/-- The class registry `FEATURE_TYPE_MAP`. -/
def FEATURE_TYPE_MAP : FeatureMap :=
  [("temp".toList, (.Temperature, TEMPERATURE_MAP)),
   ("in".toList, (.Voltage, VOLTAGE_MAP)),
   ("fan".toList, (.Fan, FAN_MAP)),
   ("pwm".toList, (.Pwm, PWM_MAP)),
   ("cpu".toList, (.Cpu, CPU_MAP)),
   ("power".toList, (.Power, POWER_MAP)),
   ("curr".toList, (.Current, CURRENT_MAP)),
   ("energy".toList, (.Energy, ENERGY_MAP)),
   ("intrusion".toList, (.Intrusion, INTRUSION_MAP)),
   ("humidity".toList, (.Humidity, HUMIDITY_MAP))]

/-- Name-classification errors of `SubfeatureError`; the `Io` payload case
is modelled from the spec (`error.rs` is outside `src/`): `?` on an
`io::Error` in `from_path` lands there, and `?` on the `ParseIntError` of
`u32::from_str` yields `Invalid` (spec: a non-numeric instance substring
is an Invalid classification). -/
inductive SubfeatureError
  | Invalid
  | Unknown
  | Io
deriving DecidableEq, Repr

instance {ε α : Type} [DecidableEq ε] [DecidableEq α] :
    DecidableEq (Except ε α) := fun a b =>
  match a, b with
  | .ok x, .ok y =>
    if h : x = y then .isTrue (by rw [h]) else .isFalse (by simp [h])
  | .error x, .error y =>
    if h : x = y then .isTrue (by rw [h]) else .isFalse (by simp [h])
  | .ok _, .error _ => .isFalse (by simp)
  | .error _, .ok _ => .isFalse (by simp)

/-- Embedding of `Subfeature::get_properties_from_name`, with the static
registry `FEATURE_TYPE_MAP` factored out as the `ftm` argument:
the literal `beep_enable` short-circuits; otherwise split at the first
underscore (whole name and empty suffix when there is none), locate the
first ASCII digit of the head (`Invalid` when absent), parse the tail of
the head with `u32::from_str` (`Invalid` on failure), then resolve class
and suffix in the registry (`Unknown` when either is absent). -/
def get_properties_from_name_in (ftm : FeatureMap) (name : List Char) :
    Except SubfeatureError (Nat × SubfeatureType) :=
  if name = "beep_enable".toList then
    .ok (0, .BeepEnable)
  else
    let p := (splitOnce '_' name).getD (name, [])
    let subfeature_name := p.1
    let subfeature_id := p.2
    match findFirstDigit subfeature_name with
    | none => .error .Invalid
    | some feature_id_len =>
      let feature_id := subfeature_name.take feature_id_len
      let feature_number_str := subfeature_name.drop feature_id_len
      match u32FromStr feature_number_str with
      | none => .error .Invalid
      | some feature_number =>
        match (ftm.lookup feature_id).bind
            (fun pr => pr.2.lookup subfeature_id) with
        | some sf_type => .ok (feature_number, sf_type)
        | none => .error .Unknown

/-- The parser bound to the process-wide registry, as the source function
reads the static `FEATURE_TYPE_MAP`. -/
def get_properties_from_name (name : List Char) :
    Except SubfeatureError (Nat × SubfeatureType) :=
  get_properties_from_name_in FEATURE_TYPE_MAP name

/-- Rounding of Rust `f64::round`: half-away-from-zero, on the exact
rational embedding of the value. -/
def roundHalfAway (x : ℚ) : ℤ :=
  if 0 ≤ x then ⌊x + 1 / 2⌋ else -⌊-x + 1 / 2⌋

/-- Embedding of `SubfeatureType::to_native`:
`(value * denom / numer).round() as i64`.  The `f64` arithmetic is
idealized as exact rational arithmetic and the saturating `as i64` cast
is the identity (every value in the claims' scope fits an `i64`). -/
def SubfeatureType.to_native (t : SubfeatureType) (value : ℚ) : ℤ :=
  roundHalfAway (value * t.ratio.denom / t.ratio.numer)

/-- Embedding of `SubfeatureType::to_unity`:
`value * numer / denom`, idealized over exact rationals. -/
def SubfeatureType.to_unity (t : SubfeatureType) (value : ℚ) : ℚ :=
  value * t.ratio.numer / t.ratio.denom

/-- Modelled from the spec: IO failure causes surfaced by the filesystem
(the concrete `std::io::Error` values are outside this layer).
`notFound` is the failure of opening a path that does not exist. -/
inductive IoError
  | notFound
  | other
deriving DecidableEq, Repr

/-- Filesystem paths as the parser sees them: only the final component
(already decoded to text) is ever inspected, and it is absent (`none`)
exactly when Rust's `file_name().and_then(OsStr::to_str)` is `None`.
The `tag` field keeps distinct paths distinguishable for the `FS`
query functions. -/
structure SysPath where
  tag : Nat
  fileName : Option (List Char)
deriving DecidableEq, Repr

/-- Explicit filesystem state: the queries the subfeature layer performs,
passed as a record so that each syscall of the source is one field
application.  `read_file` embeds `sysfs_read_file` (whole content as
text; modelled from the spec, `sysfs.rs` being outside `src/`), and
`open_write` the `OpenOptions` write-only, no-create open. -/
structure FS where
  pathExists : SysPath → Bool
  st_mode : SysPath → Except IoError Nat
  read_file : SysPath → Except IoError (List Char)
  open_write : SysPath → Except IoError Unit

/-- Modelled from the spec: the crate error type `Error` of `error.rs`
(outside `src/`), with its spec-documented kinds: `Access` carries the
static message, `Io` wraps a filesystem failure, `Parse` is malformed
numeric file content. -/
inductive Error
  | Access (msg : List Char)
  | Io (e : IoError)
  | Parse
deriving DecidableEq, Repr

/-- The `Subfeature` value object, fields as in the source struct. -/
structure Subfeature where
  name : List Char
  path : SysPath
  subfeature_type : SubfeatureType
  compute_statement : Option (List Char)
  is_readable : Bool
  is_writable : Bool
deriving DecidableEq, Repr

/-- Parse an unsigned decimal significand (digits with an optional
fractional part) to its exact rational value. -/
def parseF64Unsigned (s : List Char) : Option ℚ :=
  let intPart := s.takeWhile Char.isDigit
  let rest := s.dropWhile Char.isDigit
  match rest with
  | [] => if intPart.isEmpty then none else some (digitsVal intPart)
  | '.' :: frac =>
    if frac.all Char.isDigit && (!intPart.isEmpty || !frac.isEmpty) then
      some ((digitsVal intPart : ℚ) + (digitsVal frac : ℚ) / 10 ^ frac.length)
    else none
  | _ => none

/-- Modelled numeric grammar of Rust `str::parse::<f64>` restricted to
plain decimal significands with an optional sign (the exponent and
inf/nan forms of the full grammar are outside the inputs in scope);
`none` stands for `ParseFloatError`, and the value is exact. -/
def parseF64 (s : List Char) : Option ℚ :=
  match s with
  | '+' :: rest => parseF64Unsigned rest
  | '-' :: rest => (parseF64Unsigned rest).map (fun q => -q)
  | _ => parseF64Unsigned s

/-- Embedding of `Subfeature::read_sysfs_value`: read the whole file,
parse it as a number, scale by `to_unity`.  The `?` conversions of the
read failure and of `ParseFloatError` into `Error` are modelled from the
spec as the `Io` and `Parse` kinds. -/
def Subfeature.read_sysfs_value (fs : FS) (sf : Subfeature) :
    Except Error ℚ :=
  match fs.read_file sf.path with
  | .error e => .error (.Io e)
  | .ok content =>
    match parseF64 content with
    | none => .error .Parse
    | some value => .ok (sf.subfeature_type.to_unity value)

/-- Embedding of `Subfeature::read_value`: gate on the readable flag,
else the `Access` error with the source's message. -/
def Subfeature.read_value (fs : FS) (sf : Subfeature) : Except Error ℚ :=
  if sf.is_readable then
    sf.read_sysfs_value fs
  else
    .error (.Access "Subfeature not readable".toList)

/-- Embedding of `Subfeature::write_sysfs_value`: open the file
write-only without create, then write the decimal text of
`to_native(value)`; the `ok` payload reifies the text written, the
side effect being the only observable of the source function. -/
def Subfeature.write_sysfs_value (fs : FS) (sf : Subfeature) (value : ℚ) :
    Except IoError (List Char) :=
  match fs.open_write sf.path with
  | .error e => .error e
  | .ok _ => .ok (intChars (sf.subfeature_type.to_native value))

/-- Embedding of `Subfeature::write_value`: gate on the writable flag
(`Access` error otherwise), and surface the IO failure of the
underlying write through the modelled `Error::Io` conversion of `?`. -/
def Subfeature.write_value (fs : FS) (sf : Subfeature) (value : ℚ) :
    Except Error (List Char) :=
  if sf.is_writable then
    match sf.write_sysfs_value fs value with
    | .error e => .error (.Io e)
    | .ok t => .ok t
  else
    .error (.Access "Subfeature not writable".toList)

/-- Outcome of a call that can also panic: `crash` embeds a Rust panic
(`unwrap()` on `None`), which is not a returned error. -/
inductive Outcome (ε α : Type)
  | ok (a : α)
  | err (e : ε)
  | crash
deriving DecidableEq, Repr

/-- Embedding of `Subfeature::from_path`: `Invalid` when the path does
not exist; `unwrap()` of the decoded basename (a panic — `crash` — when
it is `None`); the name parser's failure propagated by `?`; the metadata
query, whose `io::Error` becomes `SubfeatureError::Io` by the modelled
`?` conversion; owner-read (0o400) and owner-write (0o200) mode bits;
and the assembled immutable `Subfeature` beside the parsed feature
number.  File content is never read. -/
def Subfeature.from_path (fs : FS) (path : SysPath) :
    Outcome SubfeatureError (Nat × Subfeature) :=
  if fs.pathExists path = false then
    .err .Invalid
  else
    match path.fileName with
    | none => .crash
    | some name =>
      match get_properties_from_name name with
      | .error e => .err e
      | .ok (feature_number, subfeature_type) =>
        match fs.st_mode path with
        | .error _ => .err .Io
        | .ok st_mode =>
          .ok (feature_number,
            { name := name
              path := path
              subfeature_type := subfeature_type
              compute_statement := none
              is_readable := (st_mode &&& 256) == 256
              is_writable := (st_mode &&& 128) == 128 })

/-- A character that is not a digit is not in an all-digit list. -/
theorem not_mem_of_all_digit {x : Char} {l : List Char}
    (hl : ∀ c ∈ l, c.isDigit = true) (hx : x.isDigit = false) : x ∉ l :=
  fun hmem => by rw [hl x hmem] at hx; cases hx

/-- splitOnce finds the separator inserted after a separator-free part. -/
theorem splitOnce_append (a b : List Char) (ha : '_' ∉ a) :
    splitOnce '_' (a ++ '_' :: b) = some (a, b) := by
  induction a with
  | nil => simp [splitOnce]
  | cons c cs ih =>
    have hc : ¬c = '_' := fun h => ha (h ▸ List.mem_cons_self c cs)
    have hcs : '_' ∉ cs := fun h => ha (List.mem_cons_of_mem c h)
    simp [splitOnce, hc, ih hcs]

/-- splitOnce on a separator-free list is `none`. -/
theorem splitOnce_eq_none (a : List Char) (ha : '_' ∉ a) :
    splitOnce '_' a = none := by
  induction a with
  | nil => rfl
  | cons c cs ih =>
    have hc : ¬c = '_' := fun h => ha (h ▸ List.mem_cons_self c cs)
    have hcs : '_' ∉ cs := fun h => ha (List.mem_cons_of_mem c h)
    simp [splitOnce, hc, ih hcs]

/-- The first digit after a digit-free part is found at that part's
length. -/
theorem findFirstDigit_append (p : List Char) (d : Char) (r : List Char)
    (hp : ∀ c ∈ p, c.isDigit = false) (hd : d.isDigit = true) :
    findFirstDigit (p ++ d :: r) = some p.length := by
  induction p with
  | nil => simp [findFirstDigit, hd]
  | cons c cs ih =>
    have hc : c.isDigit = false := hp c (List.mem_cons_self c cs)
    have hcs : ∀ x ∈ cs, x.isDigit = false :=
      fun x hx => hp x (List.mem_cons_of_mem c hx)
    simp [findFirstDigit, hc, ih hcs]

/-- findFirstDigit is `none` exactly on digit-free lists. -/
theorem findFirstDigit_eq_none_iff (l : List Char) :
    findFirstDigit l = none ↔ ∀ c ∈ l, c.isDigit = false := by
  induction l with
  | nil => simp [findFirstDigit]
  | cons c cs ih =>
    by_cases hc : c.isDigit
    · simp [findFirstDigit, hc]
    · simp [findFirstDigit, hc, ih, eq_false_of_ne_true hc]

/-- The digit-accumulating recursion succeeds on all-digit input and
computes the base-10 fold. -/
theorem parseDigitsAux_eq_foldl (l : List Char) (acc : Nat)
    (h : ∀ c ∈ l, c.isDigit = true) :
    parseDigitsAux acc l =
      some (l.foldl (fun a c => 10 * a + digitVal c) acc) := by
  induction l generalizing acc with
  | nil => rfl
  | cons c cs ih =>
    have hc : c.isDigit = true := h c (List.mem_cons_self c cs)
    have hcs : ∀ x ∈ cs, x.isDigit = true :=
      fun x hx => h x (List.mem_cons_of_mem c hx)
    simp [parseDigitsAux, hc, ih _ hcs, List.foldl_cons]

/-- parseDigits on a non-empty all-digit list returns its base-10
value. -/
theorem parseDigits_eq (l : List Char) (hne : l ≠ [])
    (h : ∀ c ∈ l, c.isDigit = true) :
    parseDigits l = some (digitsVal l) := by
  cases l with
  | nil => exact absurd rfl hne
  | cons c cs => exact parseDigitsAux_eq_foldl _ _ h

/-- u32FromStr on a non-empty all-digit list whose value fits in 32 bits
returns that value. -/
theorem u32FromStr_eq (l : List Char) (hne : l ≠ [])
    (h : ∀ c ∈ l, c.isDigit = true) (hlt : digitsVal l < 4294967296) :
    u32FromStr l = some (digitsVal l) := by
  have hstrip : stripPlus l = l := by
    cases l with
    | nil => rfl
    | cons c cs =>
      have hc : c.isDigit = true := h c (List.mem_cons_self c cs)
      have : ¬c = '+' := fun hplus => by rw [hplus] at hc; cases hc
      simp [stripPlus, this]
  rw [u32FromStr, hstrip, parseDigits_eq l hne h]
  simp [hlt]

/-- Each digit character below 10 is a digit. -/
theorem digitChar_isDigit (k : Nat) (h : k < 10) :
    (digitChar k).isDigit = true := by
  interval_cases k <;> decide

/-- digitChar below 10 round-trips through digitVal. -/
theorem digitVal_digitChar (k : Nat) (h : k < 10) :
    digitVal (digitChar k) = k := by
  interval_cases k <;> decide

/-- The fuel-indexed renderer, run with enough fuel, produces a
non-empty all-digit numeral of the right value. -/
theorem natCharsAux_spec :
    ∀ fuel n, n < fuel →
      natCharsAux fuel n ≠ [] ∧
      (∀ c ∈ natCharsAux fuel n, c.isDigit = true) ∧
      digitsVal (natCharsAux fuel n) = n := by
  intro fuel
  induction fuel with
  | zero => intro n hn; omega
  | succ f ih =>
    intro n hn
    by_cases h10 : n < 10
    · refine ⟨by simp [natCharsAux, h10], ?_, ?_⟩
      · intro c hc
        simp [natCharsAux, h10] at hc
        rw [hc]; exact digitChar_isDigit n h10
      · simp [natCharsAux, h10, digitsVal, digitVal_digitChar n h10]
    · have hdiv : n / 10 < n := Nat.div_lt_self (by omega) (by omega)
      have hfuel : n / 10 < f := by omega
      obtain ⟨ihne, ihdig, ihval⟩ := ih (n / 10) hfuel
      have hmod : n % 10 < 10 := Nat.mod_lt _ (by omega)
      refine ⟨by simp [natCharsAux, h10], ?_, ?_⟩
      · intro c hc
        simp [natCharsAux, h10] at hc
        rcases hc with hc | hc
        · exact ihdig c hc
        · rw [hc]; exact digitChar_isDigit _ hmod
      · simp only [natCharsAux, if_neg h10, digitsVal, List.foldl_append,
          List.foldl_cons, List.foldl_nil]
        have : digitsVal (natCharsAux f (n / 10)) = n / 10 := ihval
        rw [digitsVal] at this
        rw [this, digitVal_digitChar _ hmod]
        omega

/-- The decimal numeral of `n` is non-empty, all digits, and reads back
as `n`. -/
theorem natChars_spec (n : Nat) :
    natChars n ≠ [] ∧ (∀ c ∈ natChars n, c.isDigit = true) ∧
      digitsVal (natChars n) = n :=
  natCharsAux_spec (n + 1) n (Nat.lt_succ_self n)

/-- A list containing a digit is not the literal `beep_enable`. -/
theorem ne_beep_of_digit (l : List Char)
    (h : ∃ c ∈ l, c.isDigit = true) : l ≠ "beep_enable".toList := by
  intro heq
  obtain ⟨c, hc, hd⟩ := h
  rw [heq] at hc
  have : ∀ x ∈ "beep_enable".toList, x.isDigit = false := by decide
  rw [this c hc] at hd
  cases hd

/-- Association-list lookup finds a member when the keys are distinct. -/
theorem lookup_of_mem {β : Type} {l : List (List Char × β)}
    {k : List Char} {v : β} (hnd : (l.map Prod.fst).Nodup)
    (hm : (k, v) ∈ l) : l.lookup k = some v := by
  induction l with
  | nil => cases hm
  | cons hd tl ih =>
    rcases List.mem_cons.mp hm with heq | hmem
    · rw [← heq]
      simp [List.lookup]
    · have hk : k ∈ tl.map Prod.fst :=
        List.mem_map.mpr ⟨(k, v), hmem, rfl⟩
      have hne : ¬(k == hd.1) = true := by
        intro hbeq
        have : k = hd.1 := eq_of_beq hbeq
        rw [List.map_cons, List.nodup_cons] at hnd
        exact hnd.1 (this ▸ hk)
      obtain ⟨k1, v1⟩ := hd
      rw [List.map_cons, List.nodup_cons] at hnd
      simp only [List.lookup]
      rw [Bool.of_not_eq_true hne]
      exact ih hnd.2 hmem

/-- Shape of the parser on a name assembled from a digit-free,
underscore-free head part, a digit run, an underscore, and a suffix:
the digits become the instance number and the result is the registry
lookup of (head, suffix). -/
theorem gp_shape (ftm : FeatureMap) (p ds sfx : List Char)
    (hpu : '_' ∉ p) (hpd : ∀ c ∈ p, c.isDigit = false)
    (hne : ds ≠ []) (hdd : ∀ c ∈ ds, c.isDigit = true)
    (hval : digitsVal ds < 4294967296) :
    get_properties_from_name_in ftm ((p ++ ds) ++ '_' :: sfx) =
      match (ftm.lookup p).bind (fun pr => pr.2.lookup sfx) with
      | some t => .ok (digitsVal ds, t)
      | none => .error .Unknown := by
  obtain ⟨d, rest, rfl⟩ : ∃ d rest, ds = d :: rest := by
    cases ds with
    | nil => exact absurd rfl hne
    | cons d rest => exact ⟨d, rest, rfl⟩
  have hdsu : '_' ∉ d :: rest := not_mem_of_all_digit hdd (by decide)
  have hbeep : ¬((p ++ d :: rest) ++ '_' :: sfx) = "beep_enable".toList :=
    ne_beep_of_digit _ ⟨d, by simp, hdd d (by simp)⟩
  have hsplit : splitOnce '_' ((p ++ d :: rest) ++ '_' :: sfx) =
      some (p ++ d :: rest, sfx) :=
    splitOnce_append _ _ (by
      intro hmem
      rcases List.mem_append.mp hmem with hp | hd
      · exact hpu hp
      · exact hdsu hd)
  have hfind : findFirstDigit (p ++ d :: rest) = some p.length :=
    findFirstDigit_append p d rest hpd (hdd d (by simp))
  have htake : (p ++ d :: rest).take p.length = p := List.take_left _ _
  have hdrop : (p ++ d :: rest).drop p.length = d :: rest :=
    List.drop_left _ _
  have hu32 : u32FromStr (d :: rest) = some (digitsVal (d :: rest)) :=
    u32FromStr_eq _ (by simp) hdd hval
  unfold get_properties_from_name_in
  rw [if_neg hbeep, hsplit]
  simp only [Option.getD_some, hfind, htake, hdrop, hu32]

/-- Shape of the parser on a bare name (digit-free, underscore-free head
followed by digits, no underscore): the suffix is the empty string. -/
theorem gp_shape_bare (ftm : FeatureMap) (p ds : List Char)
    (hpu : '_' ∉ p) (hpd : ∀ c ∈ p, c.isDigit = false)
    (hne : ds ≠ []) (hdd : ∀ c ∈ ds, c.isDigit = true)
    (hval : digitsVal ds < 4294967296) :
    get_properties_from_name_in ftm (p ++ ds) =
      match (ftm.lookup p).bind (fun pr => pr.2.lookup []) with
      | some t => .ok (digitsVal ds, t)
      | none => .error .Unknown := by
  obtain ⟨d, rest, rfl⟩ : ∃ d rest, ds = d :: rest := by
    cases ds with
    | nil => exact absurd rfl hne
    | cons d rest => exact ⟨d, rest, rfl⟩
  have hdsu : '_' ∉ d :: rest := not_mem_of_all_digit hdd (by decide)
  have hbeep : ¬(p ++ d :: rest) = "beep_enable".toList :=
    ne_beep_of_digit _ ⟨d, by simp, hdd d (by simp)⟩
  have hsplit : splitOnce '_' (p ++ d :: rest) = none :=
    splitOnce_eq_none _ (by
      intro hmem
      rcases List.mem_append.mp hmem with hp | hd
      · exact hpu hp
      · exact hdsu hd)
  have hfind : findFirstDigit (p ++ d :: rest) = some p.length :=
    findFirstDigit_append p d rest hpd (hdd d (by simp))
  have htake : (p ++ d :: rest).take p.length = p := List.take_left _ _
  have hdrop : (p ++ d :: rest).drop p.length = d :: rest :=
    List.drop_left _ _
  have hu32 : u32FromStr (d :: rest) = some (digitsVal (d :: rest)) :=
    u32FromStr_eq _ (by simp) hdd hval
  unfold get_properties_from_name_in
  rw [if_neg hbeep, hsplit]
  simp only [Option.getD_none, hfind, htake, hdrop, hu32]

/-- Every registered class key is free of underscores and digits. -/
theorem ftm_keys_ok :
    ∀ pr ∈ FEATURE_TYPE_MAP, '_' ∉ pr.1 ∧ ∀ c ∈ pr.1, c.isDigit = false := by
  decide

/-- The class keys of the registry are distinct. -/
theorem ftm_nodup : (FEATURE_TYPE_MAP.map Prod.fst).Nodup := by decide

/-- The suffix keys of every registered class table are distinct. -/
theorem ftm_tables_nodup :
    ∀ pr ∈ FEATURE_TYPE_MAP, (pr.2.2.map Prod.fst).Nodup := by decide

/-- The `SubfeatureType` variants flagged alarm in the registry rows of
`make_subfeatures!`. -/
def alarmVariants : List SubfeatureType :=
  [.Fan .Alarm, .Fan .Min_Alarm, .Fan .Max_Alarm,
   .Temperature .Alarm, .Temperature .Max_Alarm, .Temperature .Min_Alarm,
   .Temperature .Emergency_Alarm, .Temperature .Crit_Max_Alarm,
   .Temperature .Crit_Min_Alarm,
   .Voltage .Alarm, .Voltage .Max_Alarm, .Voltage .Min_Alarm,
   .Voltage .Crit_Max_Alarm, .Voltage .Crit_Min_Alarm,
   .Current .Alarm, .Current .Max_Alarm, .Current .Min_Alarm,
   .Current .Crit_Max_Alarm, .Current .Crit_Min_Alarm,
   .Power .Alarm, .Power .Cap_Alarm, .Power .Max_Alarm,
   .Power .Min_Alarm, .Power .Crit_Max_Alarm, .Power .Crit_Min_Alarm]

/-- C1 (amended: the instance number must be representable as a `u32`,
i.e. below 2^32, the parse of larger instance substrings failing in
`u32::from_str`): for every (class-prefix, suffix) pair registered in
the feature/suffix tables and any instance number N < 2^32,
`get_properties_from_name` on `"<prefix><N>_<suffix>"` returns
(N, the registered type) — a suffix with further underscores included,
since the split happens only at the first underscore; on the bare
`"<prefix><N>"` the result is exactly the table's empty-suffix entry
(Unknown when the class has none); and the only class registering an
empty suffix is `pwm`. -/
theorem C1_parse_registered :
    (∀ pfx ft tbl sfx t N,
        (pfx, (ft, tbl)) ∈ FEATURE_TYPE_MAP → (sfx, t) ∈ tbl →
        N < 4294967296 →
        get_properties_from_name ((pfx ++ natChars N) ++ '_' :: sfx) =
          .ok (N, t)) ∧
    (∀ pfx ft tbl N,
        (pfx, (ft, tbl)) ∈ FEATURE_TYPE_MAP → N < 4294967296 →
        get_properties_from_name (pfx ++ natChars N) =
          match tbl.lookup [] with
          | some t => .ok (N, t)
          | none => .error .Unknown) ∧
    (∀ pr ∈ FEATURE_TYPE_MAP,
        (pr.2.2.lookup ([] : List Char)).isSome ↔ pr.1 = "pwm".toList) := by
  refine ⟨?_, ?_, ?_⟩
  · intro pfx ft tbl sfx t N hmem htbl hN
    obtain ⟨hpu, hpd⟩ := ftm_keys_ok _ hmem
    have h1 : FEATURE_TYPE_MAP.lookup pfx = some (ft, tbl) :=
      lookup_of_mem ftm_nodup hmem
    have h2 : tbl.lookup sfx = some t :=
      lookup_of_mem (ftm_tables_nodup _ hmem) htbl
    obtain ⟨hne, hdig, hval⟩ := natChars_spec N
    rw [get_properties_from_name,
      gp_shape FEATURE_TYPE_MAP pfx (natChars N) sfx hpu hpd hne hdig
        (by rw [hval]; exact hN)]
    simp only [h1, Option.some_bind, h2, hval]
  · intro pfx ft tbl N hmem hN
    obtain ⟨hpu, hpd⟩ := ftm_keys_ok _ hmem
    have h1 : FEATURE_TYPE_MAP.lookup pfx = some (ft, tbl) :=
      lookup_of_mem ftm_nodup hmem
    obtain ⟨hne, hdig, hval⟩ := natChars_spec N
    rw [get_properties_from_name,
      gp_shape_bare FEATURE_TYPE_MAP pfx (natChars N) hpu hpd hne hdig
        (by rw [hval]; exact hN)]
    simp only [h1, Option.some_bind, hval]
  · decide

/-- C1 counterexample to the unamended claim: the registered pair
(`temp`, `input`) with the instance number 4294967296 = 2^32 does not
parse to `ok (4294967296, Temperature::Input)` — `u32::from_str`
overflows and the parse fails. -/
theorem C1_counterexample :
    get_properties_from_name "temp4294967296_input".toList ≠
      Except.ok (4294967296, SubfeatureType.Temperature Temperature.Input) := by
  decide

/-- C1 witness: the amended theorem applied at the registered pair
(`temp`, `input`) with instance number 7. -/
theorem C1_witness :
    get_properties_from_name "temp7_input".toList =
      Except.ok (7, SubfeatureType.Temperature Temperature.Input) := by
  have h := C1_parse_registered.1 "temp".toList .Temperature
    TEMPERATURE_MAP "input".toList (.Temperature .Input) 7
    (by decide) (by decide) (by decide)
  have heq : ("temp".toList ++ natChars 7) ++ '_' :: "input".toList =
      "temp7_input".toList := by decide
  rw [heq] at h
  exact h

/-- C9: parsing the exact filename `beep_enable` returns
(0, BeepEnable) before the registry is ever consulted, for any registry
contents `ftm`. -/
theorem C9_beep_enable_bypasses_registry :
    ∀ ftm : FeatureMap,
      get_properties_from_name_in ftm "beep_enable".toList =
        .ok (0, .BeepEnable) := by
  intro ftm
  rfl

/-- C7: `is_alarm` is true exactly for the variants flagged alarm in the
registry rows (`alarmVariants`), and false for every other variant,
`Cpu` and `BeepEnable` included. -/
theorem C7_is_alarm_exactly_flagged :
    ∀ t : SubfeatureType,
      (t.is_alarm = true ↔ t ∈ alarmVariants) ∧
      SubfeatureType.is_alarm .Cpu = false ∧
      SubfeatureType.is_alarm .BeepEnable = false := by
  intro t
  refine ⟨?_, rfl, rfl⟩
  cases t with
  | Fan sft => cases sft <;> decide
  | Pwm sft => cases sft <;> decide
  | Temperature sft => cases sft <;> decide
  | Voltage sft => cases sft <;> decide
  | Current sft => cases sft <;> decide
  | Power sft => cases sft <;> decide
  | Energy sft => cases sft <;> decide
  | Humidity sft => cases sft <;> decide
  | Intrusion sft => cases sft <;> decide
  | Cpu => decide
  | BeepEnable => decide

/-- C2: the two failure kinds of name classification.  With
(head, sfx) the split of the name at its first underscore (whole name
and empty suffix when there is none): a head free of ASCII digits, or a
digit-to-end substring rejected by `u32::from_str`, is the `Invalid`
error; a well-formed name whose class or suffix lookup fails is the
`Unknown` error; in particular `foo1_bar` is Unknown and `temp_bar` is
Invalid. -/
theorem C2_invalid_vs_unknown :
    (∀ name : List Char, name ≠ "beep_enable".toList →
        (∀ c ∈ ((splitOnce '_' name).getD (name, [])).1, c.isDigit = false) →
        get_properties_from_name name = .error .Invalid) ∧
    (∀ (name : List Char) (i : Nat), name ≠ "beep_enable".toList →
        findFirstDigit ((splitOnce '_' name).getD (name, [])).1 = some i →
        u32FromStr (((splitOnce '_' name).getD (name, [])).1.drop i) = none →
        get_properties_from_name name = .error .Invalid) ∧
    (∀ (name : List Char) (i n : Nat), name ≠ "beep_enable".toList →
        findFirstDigit ((splitOnce '_' name).getD (name, [])).1 = some i →
        u32FromStr (((splitOnce '_' name).getD (name, [])).1.drop i) =
          some n →
        (FEATURE_TYPE_MAP.lookup
            (((splitOnce '_' name).getD (name, [])).1.take i)).bind
          (fun pr => pr.2.lookup ((splitOnce '_' name).getD (name, [])).2) =
          none →
        get_properties_from_name name = .error .Unknown) ∧
    get_properties_from_name "foo1_bar".toList = .error .Unknown ∧
    get_properties_from_name "temp_bar".toList = .error .Invalid := by
  refine ⟨?_, ?_, ?_, by decide, by decide⟩
  · intro name hbeep hnod
    have hfind : findFirstDigit ((splitOnce '_' name).getD (name, [])).1 =
        none := (findFirstDigit_eq_none_iff _).mpr hnod
    simp only [get_properties_from_name, get_properties_from_name_in]
    rw [if_neg hbeep]
    simp only [hfind]
  · intro name i hbeep hfind hu32
    simp only [get_properties_from_name, get_properties_from_name_in]
    rw [if_neg hbeep]
    simp only [hfind, hu32]
  · intro name i n hbeep hfind hu32 hlook
    simp only [get_properties_from_name, get_properties_from_name_in]
    rw [if_neg hbeep]
    simp only [hfind, hu32, hlook]

/-- C2 witness: the Invalid clause applied at the concrete name
`temp_bar`, whose head has no digit. -/
theorem C2_witness :
    get_properties_from_name "temp_bar".toList = .error .Invalid :=
  C2_invalid_vs_unknown.1 "temp_bar".toList (by decide) (by decide)

/-- Rounding half-away-from-zero is the identity on integers. -/
theorem roundHalfAway_intCast (n : ℤ) : roundHalfAway (n : ℚ) = n := by
  unfold roundHalfAway
  rcases le_or_lt 0 (n : ℚ) with h | h
  · rw [if_pos h, Int.floor_eq_iff]
    constructor <;> [norm_num; norm_num]
  · rw [if_neg (not_le.mpr h)]
    have hfloor : ⌊-(n : ℚ) + 1 / 2⌋ = -n := by
      rw [Int.floor_eq_iff]
      constructor <;> [push_cast; push_cast] <;> linarith
    rw [hfloor, neg_neg]

/-- Rounding half-away-from-zero moves a value by at most one half. -/
theorem roundHalfAway_sub_le (x : ℚ) :
    |((roundHalfAway x : ℤ) : ℚ) - x| ≤ 1 / 2 := by
  unfold roundHalfAway
  rcases le_or_lt 0 x with h | h
  · rw [if_pos h]
    have h1 : ((⌊x + 1 / 2⌋ : ℤ) : ℚ) ≤ x + 1 / 2 := Int.floor_le _
    have h2 : x + 1 / 2 < (⌊x + 1 / 2⌋ : ℤ) + 1 := Int.lt_floor_add_one _
    rw [abs_le]
    constructor <;> push_cast <;> push_cast at h2 <;> linarith
  · rw [if_neg (not_le.mpr h)]
    have h1 : ((⌊-x + 1 / 2⌋ : ℤ) : ℚ) ≤ -x + 1 / 2 := Int.floor_le _
    have h2 : -x + 1 / 2 < (⌊-x + 1 / 2⌋ : ℤ) + 1 := Int.lt_floor_add_one _
    rw [abs_le]
    constructor <;> push_cast <;> push_cast at h2 <;> linarith

/-- Every variant's ratio has positive numerator and denominator. -/
theorem ratio_pos (t : SubfeatureType) :
    0 < t.ratio.numer ∧ 0 < t.ratio.denom := by
  cases t with
  | Fan sft => cases sft <;> decide
  | Pwm sft => cases sft <;> decide
  | Temperature sft => cases sft <;> decide
  | Voltage sft => cases sft <;> decide
  | Current sft => cases sft <;> decide
  | Power sft => cases sft <;> decide
  | Energy sft => cases sft <;> decide
  | Humidity sft => cases sft <;> decide
  | Intrusion sft => cases sft <;> decide
  | Cpu => decide
  | BeepEnable => decide

/-- C6: for every SubfeatureType and value, writing back
`to_native(v)` and re-reading it through `to_unity` lands within half a
raw unit (half of numer/denom in standard units) of v; `to_native`
rounds half-away-from-zero. -/
theorem C6_round_trip (t : SubfeatureType) (v : ℚ) :
    |t.to_unity ((t.to_native v : ℤ) : ℚ) - v| ≤
      1 / 2 * ((t.ratio.numer : ℚ) / (t.ratio.denom : ℚ)) := by
  obtain ⟨hn, hd⟩ := ratio_pos t
  have hnq : (0 : ℚ) < (t.ratio.numer : ℚ) := by exact_mod_cast hn
  have hdq : (0 : ℚ) < (t.ratio.denom : ℚ) := by exact_mod_cast hd
  set n : ℚ := (t.ratio.numer : ℚ)
  set d : ℚ := (t.ratio.denom : ℚ)
  have hbound := roundHalfAway_sub_le (v * d / n)
  have hv : v = v * d / n * (n / d) := by
    field_simp
  have heq : t.to_unity ((t.to_native v : ℤ) : ℚ) - v =
      (((roundHalfAway (v * d / n) : ℤ) : ℚ) - v * d / n) * (n / d) := by
    rw [SubfeatureType.to_unity, SubfeatureType.to_native]
    rw [sub_mul]
    rw [← hv]
    ring
  rw [heq, abs_mul, abs_of_pos (div_pos hnq hdq)]
  calc |((roundHalfAway (v * d / n) : ℤ) : ℚ) - v * d / n| * (n / d) ≤
      1 / 2 * (n / d) :=
        mul_le_mul_of_nonneg_right hbound (le_of_lt (div_pos hnq hdq))

/-- A filesystem in which every path exists with mode 0o644 and every
file reads as the text `45000`. -/
def fsAllExist : FS where
  pathExists := fun _ => true
  st_mode := fun _ => .ok 420
  read_file := fun _ => .ok "45000".toList
  open_write := fun _ => .ok ()

/-- A filesystem in which every path exists with mode 0o644 and every
file reads as the text `1`. -/
def fsContentOne : FS where
  pathExists := fun _ => true
  st_mode := fun _ => .ok 420
  read_file := fun _ => .ok "1".toList
  open_write := fun _ => .ok ()

/-- A path whose final component is absent (as for `/` or a path ending
in `..`). -/
def noNamePath : SysPath := ⟨0, none⟩

/-- A path whose basename is `temp1_input`. -/
def tempInputPath : SysPath := ⟨1, some "temp1_input".toList⟩

/-- A non-readable, non-writable temperature-input subfeature. -/
def sfNotReadable : Subfeature :=
  { name := "temp1_input".toList, path := tempInputPath,
    subfeature_type := .Temperature .Input, compute_statement := none,
    is_readable := false, is_writable := false }

/-- A readable temperature-input subfeature. -/
def sfTemp : Subfeature :=
  { name := "temp1_input".toList, path := tempInputPath,
    subfeature_type := .Temperature .Input, compute_statement := none,
    is_readable := true, is_writable := false }

/-- A writable pwm-channel subfeature. -/
def sfPwm : Subfeature :=
  { name := "pwm2".toList, path := ⟨2, some "pwm2".toList⟩,
    subfeature_type := .Pwm .Pwm, compute_statement := none,
    is_readable := true, is_writable := true }

/-- A readable intrusion-alarm subfeature. -/
def sfIntrusion : Subfeature :=
  { name := "intrusion1_alarm".toList,
    path := ⟨3, some "intrusion1_alarm".toList⟩,
    subfeature_type := .Intrusion .Alarm, compute_statement := none,
    is_readable := true, is_writable := false }

/-- C3 (amended: when the final path component is absent the code panics
— `unwrap()` on `None` — rather than returning an error): `from_path`
returns Invalid when the path does not exist; panics when the basename
is absent; propagates the name parser's error unchanged; turns a failed
metadata query into the IO error; on success derives is_readable from
the owner-read bit (0o400) and is_writable from the owner-write bit
(0o200) and returns the immutable Subfeature with the parsed instance
number; and it never consults file content (its result depends only on
the existence and metadata queries). -/
theorem C3_from_path :
    (∀ (fs : FS) (path : SysPath), fs.pathExists path = false →
        Subfeature.from_path fs path = .err .Invalid) ∧
    (∀ (fs : FS) (path : SysPath), fs.pathExists path = true →
        path.fileName = none → Subfeature.from_path fs path = .crash) ∧
    (∀ (fs : FS) (path : SysPath) (name : List Char) (e : SubfeatureError),
        fs.pathExists path = true → path.fileName = some name →
        get_properties_from_name name = .error e →
        Subfeature.from_path fs path = .err e) ∧
    (∀ (fs : FS) (path : SysPath) (name : List Char) (num : Nat)
        (t : SubfeatureType) (ioe : IoError),
        fs.pathExists path = true → path.fileName = some name →
        get_properties_from_name name = .ok (num, t) →
        fs.st_mode path = .error ioe →
        Subfeature.from_path fs path = .err .Io) ∧
    (∀ (fs : FS) (path : SysPath) (name : List Char) (num : Nat)
        (t : SubfeatureType) (mode : Nat),
        fs.pathExists path = true → path.fileName = some name →
        get_properties_from_name name = .ok (num, t) →
        fs.st_mode path = .ok mode →
        Subfeature.from_path fs path = .ok (num,
          { name := name, path := path, subfeature_type := t,
            compute_statement := none,
            is_readable := (mode &&& 256) == 256,
            is_writable := (mode &&& 128) == 128 })) ∧
    (∀ (fs1 fs2 : FS) (path : SysPath),
        fs1.pathExists = fs2.pathExists → fs1.st_mode = fs2.st_mode →
        Subfeature.from_path fs1 path = Subfeature.from_path fs2 path) := by
  refine ⟨?_, ?_, ?_, ?_, ?_, ?_⟩
  · intro fs path h
    unfold Subfeature.from_path
    rw [h]
    rfl
  · intro fs path hex hname
    unfold Subfeature.from_path
    rw [hex, hname]
    rfl
  · intro fs path name e hex hname hparse
    unfold Subfeature.from_path
    rw [hex, hname]
    simp only [hparse]
    rfl
  · intro fs path name num t ioe hex hname hparse hmode
    unfold Subfeature.from_path
    rw [hex, hname]
    simp only [hparse, hmode]
    rfl
  · intro fs path name num t mode hex hname hparse hmode
    unfold Subfeature.from_path
    rw [hex, hname]
    simp only [hparse, hmode]
    rfl
  · intro fs1 fs2 path h1 h2
    unfold Subfeature.from_path
    rw [h1, h2]

/-- C3 counterexample to the unamended claim: on an existing path whose
final component is absent, `from_path` panics (crashes) instead of
returning an error. -/
theorem C3_counterexample :
    Subfeature.from_path fsAllExist noNamePath = .crash := by
  rfl

/-- C3 witness: the success clause of the amended theorem applied to an
existing `temp1_input` path with mode 0o644. -/
theorem C3_witness :
    Subfeature.from_path fsAllExist tempInputPath = .ok (1,
      { name := "temp1_input".toList, path := tempInputPath,
        subfeature_type := .Temperature .Input, compute_statement := none,
        is_readable := true, is_writable := true }) := by
  have h := C3_from_path.2.2.2.2.1 fsAllExist tempInputPath
    "temp1_input".toList 1 (.Temperature .Input) 420 rfl rfl (by decide) rfl
  rw [h]
  decide

/-- C4: `read_value` is the Access error whenever the readable flag is
false, with a result independent of the filesystem (no filesystem
operation is performed); when readable, a read failure surfaces as the
IO error, unparsable content as the Parse error, and success applies
`to_unity` of the bound type's ratio to the parsed value. -/
theorem C4_read_value :
    (∀ (fs : FS) (sf : Subfeature), sf.is_readable = false →
        sf.read_value fs =
          .error (.Access "Subfeature not readable".toList)) ∧
    (∀ (fs1 fs2 : FS) (sf : Subfeature), sf.is_readable = false →
        sf.read_value fs1 = sf.read_value fs2) ∧
    (∀ (fs : FS) (sf : Subfeature) (e : IoError), sf.is_readable = true →
        fs.read_file sf.path = .error e →
        sf.read_value fs = .error (.Io e)) ∧
    (∀ (fs : FS) (sf : Subfeature) (content : List Char),
        sf.is_readable = true → fs.read_file sf.path = .ok content →
        parseF64 content = none → sf.read_value fs = .error .Parse) ∧
    (∀ (fs : FS) (sf : Subfeature) (content : List Char) (v : ℚ),
        sf.is_readable = true → fs.read_file sf.path = .ok content →
        parseF64 content = some v →
        sf.read_value fs = .ok (sf.subfeature_type.to_unity v)) := by
  refine ⟨?_, ?_, ?_, ?_, ?_⟩
  · intro fs sf h
    unfold Subfeature.read_value
    rw [h]
    rfl
  · intro fs1 fs2 sf h
    unfold Subfeature.read_value
    rw [h]
    rfl
  · intro fs sf e hr hread
    unfold Subfeature.read_value Subfeature.read_sysfs_value
    rw [hr]
    simp only [hread]
    rfl
  · intro fs sf content hr hread hparse
    unfold Subfeature.read_value Subfeature.read_sysfs_value
    rw [hr]
    simp only [hread, hparse]
    rfl
  · intro fs sf content v hr hread hparse
    unfold Subfeature.read_value Subfeature.read_sysfs_value
    rw [hr]
    simp only [hread, hparse]
    rfl

/-- C4 witness: the Access clause applied to a non-readable subfeature
over a filesystem that would happily serve the file. -/
theorem C4_witness :
    sfNotReadable.read_value fsAllExist =
      .error (.Access "Subfeature not readable".toList) :=
  C4_read_value.1 fsAllExist sfNotReadable rfl

/-- C5: `write_value` is the Access error whenever the writable flag is
false; otherwise it writes the decimal text of `to_native(value)` — for
a Pwm::Pwm subfeature, `write_value(128)` writes the literal text `128`
— and an IO failure of the open (a vanished path included) is returned
as the IO error, not a crash. -/
theorem C5_write_value :
    (∀ (fs : FS) (sf : Subfeature) (v : ℚ), sf.is_writable = false →
        sf.write_value fs v =
          .error (.Access "Subfeature not writable".toList)) ∧
    (∀ (fs : FS) (sf : Subfeature) (v : ℚ), sf.is_writable = true →
        fs.open_write sf.path = .ok () →
        sf.write_value fs v =
          .ok (intChars (sf.subfeature_type.to_native v))) ∧
    (∀ (fs : FS) (sf : Subfeature) (v : ℚ) (e : IoError),
        sf.is_writable = true → fs.open_write sf.path = .error e →
        sf.write_value fs v = .error (.Io e)) ∧
    (∀ (fs : FS) (sf : Subfeature), sf.is_writable = true →
        sf.subfeature_type = .Pwm .Pwm → fs.open_write sf.path = .ok () →
        sf.write_value fs 128 = .ok "128".toList) := by
  have hmain : ∀ (fs : FS) (sf : Subfeature) (v : ℚ),
      sf.is_writable = true → fs.open_write sf.path = .ok () →
      sf.write_value fs v =
        .ok (intChars (sf.subfeature_type.to_native v)) := by
    intro fs sf v h hopen
    unfold Subfeature.write_value Subfeature.write_sysfs_value
    rw [h]
    simp only [hopen]
    rfl
  refine ⟨?_, hmain, ?_, ?_⟩
  · intro fs sf v h
    unfold Subfeature.write_value
    rw [h]
    rfl
  · intro fs sf v e h hopen
    unfold Subfeature.write_value Subfeature.write_sysfs_value
    rw [h]
    simp only [hopen]
    rfl
  · intro fs sf h htype hopen
    rw [hmain fs sf 128 h hopen, htype]
    have hnative : SubfeatureType.to_native (.Pwm .Pwm) 128 = 128 := by
      have heq : (128 : ℚ) * ((1 : ℕ) : ℚ) / ((1 : ℕ) : ℚ) =
          ((128 : ℤ) : ℚ) := by norm_num
      show roundHalfAway ((128 : ℚ) * ((1 : ℕ) : ℚ) / ((1 : ℕ) : ℚ)) = 128
      rw [heq, roundHalfAway_intCast]
    rw [hnative]
    decide

/-- C5 witness: the Pwm scenario clause applied to the writable `pwm2`
subfeature; the text written is `128`. -/
theorem C5_witness :
    sfPwm.write_value fsAllExist 128 = .ok "128".toList :=
  C5_write_value.2.2.2 fsAllExist sfPwm rfl rfl rfl

/-- C8: `temp1_input` parses to (1, Temperature::Input) whose ratio is
Milli, and reading a readable subfeature of that type from a file whose
content is `45000` returns exactly 45. -/
theorem C8_temp1_input_scenario :
    get_properties_from_name "temp1_input".toList =
      .ok (1, .Temperature .Input) ∧
    SubfeatureType.ratio (.Temperature .Input) = Milli ∧
    (∀ (fs : FS) (sf : Subfeature), sf.is_readable = true →
        sf.subfeature_type = .Temperature .Input →
        fs.read_file sf.path = .ok "45000".toList →
        sf.read_value fs = .ok 45) := by
  refine ⟨by decide, rfl, ?_⟩
  intro fs sf hr htype hread
  have hparse : parseF64 "45000".toList = some ((45000 : ℕ) : ℚ) := rfl
  rw [C4_read_value.2.2.2.2 fs sf "45000".toList ((45000 : ℕ) : ℚ)
    hr hread hparse, htype]
  have : SubfeatureType.to_unity (.Temperature .Input) ((45000 : ℕ) : ℚ) =
      45 := by
    norm_num [SubfeatureType.to_unity, SubfeatureType.ratio,
      Temperature.ratio, Milli]
  rw [this]

/-- C8 witness: the scenario applied to the readable `temp1_input`
subfeature over the filesystem serving `45000`. -/
theorem C8_witness : sfTemp.read_value fsAllExist = .ok 45 :=
  C8_temp1_input_scenario.2.2 fsAllExist sfTemp rfl rfl rfl

/-- C10: both Intrusion variants are registered (suffixes `alarm` and
`beep`), are not flagged alarm, and carry the Micro ratio, so reading an
intrusion alarm file containing `1` yields 1/1000000 rather than 1;
in every other class a suffix ending in `alarm` has the Unity ratio and
the alarm flag set, and a `beep` suffix has the Unity ratio with the
flag clear. -/
theorem C10_intrusion_scaling :
    INTRUSION_MAP.lookup "alarm".toList = some (.Intrusion .Alarm) ∧
    INTRUSION_MAP.lookup "beep".toList = some (.Intrusion .Beep) ∧
    SubfeatureType.is_alarm (.Intrusion .Alarm) = false ∧
    SubfeatureType.is_alarm (.Intrusion .Beep) = false ∧
    SubfeatureType.ratio (.Intrusion .Alarm) = Micro ∧
    SubfeatureType.ratio (.Intrusion .Beep) = Micro ∧
    (∀ (fs : FS) (sf : Subfeature), sf.is_readable = true →
        sf.subfeature_type = .Intrusion .Alarm →
        fs.read_file sf.path = .ok "1".toList →
        sf.read_value fs = .ok (1 / 1000000)) ∧
    (∀ pr ∈ FEATURE_TYPE_MAP, pr.1 ≠ "intrusion".toList →
        ∀ q ∈ pr.2.2,
          ("alarm".toList.isSuffixOf q.1 = true →
            q.2.ratio = Unity ∧ q.2.is_alarm = true) ∧
          (q.1 = "beep".toList →
            q.2.ratio = Unity ∧ q.2.is_alarm = false)) := by
  refine ⟨by decide, by decide, rfl, rfl, rfl, rfl, ?_, by decide⟩
  intro fs sf hr htype hread
  have hparse : parseF64 "1".toList = some ((1 : ℕ) : ℚ) := rfl
  rw [C4_read_value.2.2.2.2 fs sf "1".toList ((1 : ℕ) : ℚ)
    hr hread hparse, htype]
  have : SubfeatureType.to_unity (.Intrusion .Alarm) ((1 : ℕ) : ℚ) =
      1 / 1000000 := by
    norm_num [SubfeatureType.to_unity, SubfeatureType.ratio,
      Intrusion.ratio, Micro]
  rw [this]

/-- C10 witness: the intrusion scenario applied to the readable
`intrusion1_alarm` subfeature over the filesystem serving `1`. -/
theorem C10_witness :
    sfIntrusion.read_value fsContentOne = .ok (1 / 1000000) :=
  C10_intrusion_scaling.2.2.2.2.2.2.1 fsContentOne sfIntrusion rfl rfl rfl

end Hwmon
